import Mathlib

/-!
Verification development for the sales-dashboard report pipeline
(`report.py`).  The ingestion/normalization pipeline is shallowly embedded:
pandas DataFrames become lists of rows, spreadsheet cells become optional
strings (`none` models a NaN/blank cell), and Python floats are idealized
as `PFloat` (an exact rational when finite, plus `nan`/`inf`/`ninf`).
-/

namespace Report

/-- A spreadsheet cell as produced by `pd.read_excel`: `none` models a
blank/NaN cell, `some s` models a cell whose `astype(str)` rendering is `s`. -/
def Cell : Type := Option String

instance : DecidableEq Cell := by
  unfold Cell
  infer_instance

/-- An in-memory parse of one spreadsheet file: the header row (column
names, in order) and the data rows (cells in column order). -/
structure RawFile where
  cols : List String
  rows : List (List Cell)
deriving DecidableEq

/-- Idealized Python float: finite values are exact rationals; `nan`,
`inf` and `ninf` model the IEEE specials reachable through `float(...)`. -/
inductive PFloat where
  | finite (q : ℚ)
  | nan
  | inf
  | ninf
deriving DecidableEq

/-- Whether an idealized float is finite. -/
def PFloat.isFinite : PFloat → Bool
  | .finite _ => true
  | _ => false

/-- `astype(str)` on one cell: a NaN/blank cell renders as the literal
text `"nan"`, any other cell renders as its string form. -/
def cellStr : Cell → String
  | none => "nan"
  | some s => s

/-- Cell of a row at a column index; a missing/short position is a blank
cell (pandas pads short rows with NaN). -/
def getCell (r : List Cell) (i : ℕ) : Cell :=
  r.getD i none

/-- Index of a named column in the header, as `df[name]` resolves it;
`none` models the `KeyError` case of a missing column. -/
def colIdx (f : RawFile) (c : String) : Option ℕ :=
  f.cols.findIdx? (fun x => x = c)

/-- ASCII lowering of a character list, modelling `str.lower()` /
`case=False` comparison on the ASCII data in this report. -/
def lowerL (l : List Char) : List Char :=
  l.map Char.toLower

/-- Does `pat` occur as a contiguous run at the head of `l`? -/
def hasPrefixL : List Char → List Char → Bool
  | [], _ => true
  | _ :: _, [] => false
  | p :: ps, c :: cs => (p = c) && hasPrefixL ps cs

/-- Does `pat` occur as a contiguous run anywhere in `l`? -/
def containsSub (pat : List Char) : List Char → Bool
  | [] => pat.isEmpty
  | c :: rest => hasPrefixL pat (c :: rest) || containsSub pat rest

/-- Case-insensitive substring test, modelling
`Series.str.contains(pat, case=False)` for the plain-text patterns used
by the report. -/
def strContainsCI (s pat : String) : Bool :=
  containsSub (lowerL pat.toList) (lowerL s.toList)

/-- Strip leading and trailing whitespace, modelling `str.strip()`. -/
def pyStrip (s : String) : String :=
  ⟨((s.toList.dropWhile Char.isWhitespace).reverse.dropWhile
      Char.isWhitespace).reverse⟩

/-- The stripped text of the category-style column `i` of a raw row:
`df[col].astype(str).str.strip()` at one cell. -/
def catVal (r : List Cell) (i : ℕ) : String :=
  pyStrip (cellStr (getCell r i))

/-- The drop mask of line 17 of the source at one row:
`df["Category"].str.contains("Total", case=False, na=False)` after the
category column has been stripped. -/
def isTotalRow (r : List Cell) (iCat : ℕ) : Bool :=
  strContainsCI (catVal r iCat) "Total"

/-- Numeric-text cleanup of line 24:
`.str.replace(",", "").str.replace(" ", "")`.  Replacing a one-character
pattern by the empty string deletes every occurrence of that character,
so each `replace` is embedded as a character filter. -/
def cleanNum (s : String) : String :=
  ⟨(s.toList.filter (fun c => !(c = ','))).filter (fun c => !(c = ' '))⟩

/-- Fold a digit run into a natural number (`""` folds to 0). -/
def digitsToNat (l : List Char) : ℕ :=
  l.foldl (fun n c => 10 * n + (c.toNat - 48)) 0

/-- A nonempty run of ASCII digits. -/
def isDigitRun (l : List Char) : Bool :=
  !l.isEmpty && l.all Char.isDigit

/-- Split a character list on a separator character (the list analogue of
`str.split(sep)`). -/
def splitOnChar (sep : Char) : List Char → List (List Char)
  | [] => [[]]
  | a :: rest =>
    match splitOnChar sep rest with
    | [] => if a = sep then [[], []] else [[a]]
    | h :: t => if a = sep then [] :: h :: t else (a :: h) :: t

/-- Ten to an integer power, as an exact rational. -/
def pow10 : ℤ → ℚ
  | Int.ofNat n => ((10 ^ n : ℕ) : ℚ)
  | Int.negSucc n => 1 / ((10 ^ (n + 1) : ℕ) : ℚ)

/-- Parse the mantissa part of a float literal: `digits`, `digits.digits`,
`digits.` or `.digits`. -/
def parseMantissa (l : List Char) : Option ℚ :=
  match splitOnChar '.' l with
  | [ip] => if isDigitRun ip then some ((digitsToNat ip : ℕ) : ℚ) else none
  | [ip, fp] =>
    if (isDigitRun ip || ip.isEmpty) && (isDigitRun fp || fp.isEmpty)
        && !(ip.isEmpty && fp.isEmpty) then
      some (((digitsToNat ip : ℕ) : ℚ)
        + ((digitsToNat fp : ℕ) : ℚ) / ((10 ^ fp.length : ℕ) : ℚ))
    else none
  | _ => none

/-- Parse an exponent part: optional sign then a digit run. -/
def parseExp (l : List Char) : Option ℤ :=
  match l with
  | '+' :: rest => if isDigitRun rest then some (digitsToNat rest : ℤ) else none
  | '-' :: rest => if isDigitRun rest then some (-(digitsToNat rest : ℤ)) else none
  | _ => if isDigitRun l then some (digitsToNat l : ℤ) else none

/-- Python's `float(s)` on the cleaned cell texts of this report:
surrounding whitespace is ignored, an optional sign precedes either
`inf`/`infinity`/`nan` or a decimal mantissa with optional `e` exponent.
(Numeric-literal underscores are not modelled.)  `none` is the
`ValueError` case. -/
def pyFloat (s : String) : Option PFloat :=
  let t := lowerL ((s.toList.dropWhile Char.isWhitespace).reverse.dropWhile
      Char.isWhitespace).reverse
  let sign : Bool := t.headD ' ' = '-'
  let body := match t with
    | '+' :: rest => rest
    | '-' :: rest => rest
    | l => l
  if body = "inf".toList || body = "infinity".toList then
    some (if sign then PFloat.ninf else PFloat.inf)
  else if body = "nan".toList then
    some PFloat.nan
  else
    match splitOnChar 'e' body with
    | [m] =>
      (parseMantissa m).map (fun q => PFloat.finite (if sign then -q else q))
    | [m, e] =>
      match parseMantissa m, parseExp e with
      | some q, some ex =>
        some (PFloat.finite (if sign then -(q * pow10 ex) else q * pow10 ex))
      | _, _ => none
    | _ => none

/-- The seven measure columns of line 20-21 of the source, in source order. -/
def numeric_cols : List String :=
  ["Total Sales", "Total Profit", "Total Cost Excise", "Discount",
   "Gross Sales", "VAT", "Net Sales (incl. VAT)"]

/-- The value the per-column loop of lines 22-26 assigns to one measure
column at one row: if the column exists, clean the cell's text and parse
it as a float (`none` is the `ValueError` abort); if the column does not
exist, the constant `0.0`. -/
def measureVal (f : RawFile) (c : String) (r : List Cell) : Option PFloat :=
  match colIdx f c with
  | some i => pyFloat (cleanNum (cellStr (getCell r i)))
  | none => some (PFloat.finite 0)

/-- One Normalized Record: the fields of the cleaned DataFrame that the
presentation layer reads (`measures` is the seven measure columns as
name/value pairs in `numeric_cols` order). -/
structure NRow where
  category : String
  unnamed1 : String
  measures : List (String × PFloat)
  categoryFull : String
  month : String
deriving DecidableEq

/-- Failure modes of the loader: unreadable file, missing structural
column (`KeyError`), or an unparsable numeric cell (`ValueError`). -/
inductive LoadError where
  | badFile
  | missingColumn (c : String)
  | badNumeric
deriving DecidableEq

/-- Assemble one Normalized Record from a surviving raw row (lines 13-14,
22-26, 29-30 of the source at one row).  Under the loader's guard every
`measureVal` is `some`; the `getD` default is never reached then. -/
def mkRow (f : RawFile) (iCat iSub : ℕ) (month : String) (r : List Cell) :
    NRow :=
  let cat := catVal r iCat
  let sub := catVal r iSub
  { category := cat
    unnamed1 := sub
    measures := numeric_cols.map (fun c => (c, (measureVal f c r).getD PFloat.nan))
    categoryFull := cat ++ " / " ++ sub
    month := month }

/-- `load_and_clean` of the source on an already-parsed file: resolve the
two structural columns (their `KeyError`s, in access order), drop the
"Total" rows, then run the numeric-column loop — which aborts iff some
measure cell of a surviving row fails to parse, and otherwise yields the
Normalized Records.  The column loop is embedded as an all-cells-parse
guard plus per-row extraction, which has the same success condition and
the same success value as the per-column pandas loop. -/
def load_and_clean (f : RawFile) (month : String) :
    Except LoadError (List NRow) :=
  match colIdx f "Category", colIdx f "Unnamed: 1" with
  | none, _ => .error (.missingColumn "Category")
  | some _, none => .error (.missingColumn "Unnamed: 1")
  | some iCat, some iSub =>
    let surv := f.rows.filter (fun r => !(isTotalRow r iCat))
    if surv.all (fun r => numeric_cols.all (fun c => (measureVal f c r).isSome))
    then .ok (surv.map (mkRow f iCat iSub month))
    else .error .badNumeric

/-- The file system visible to the script: path → parsed file, `none`
modelling an unreadable/unparsable file. -/
def FS : Type := String → Option RawFile

/-- The one file-reading primitive (`pd.read_excel`): returns the parse
result and the file system it leaves behind (reading writes nothing). -/
def readExcel (fs : FS) (p : String) : Option RawFile × FS :=
  (fs p, fs)

/-- A full loader invocation against the file system: read the file, then
clean it; the resulting state is threaded out. -/
def loadRun (fs : FS) (p month : String) :
    Except LoadError (List NRow) × FS :=
  match readExcel fs p with
  | (none, fs₁) => (.error .badFile, fs₁)
  | (some f, fs₁) => (load_and_clean f month, fs₁)

/-- `pd.concat(dfs, ignore_index=True)` of line 42: ordered concatenation
of the per-month tables. -/
def merged_df (dfs : List (List NRow)) : List NRow :=
  dfs.flatten

/-- The sidebar filter stage of lines 65-71: each selection, when it is
not `"All"`, keeps exactly the rows equal to it in its dimension. -/
def filtered_df (t : List NRow)
    (selected_month selected_main_cat selected_subcat : String) :
    List NRow :=
  let t₁ := if selected_month ≠ "All"
    then t.filter (fun r => r.month = selected_month) else t
  let t₂ := if selected_main_cat ≠ "All"
    then t₁.filter (fun r => r.category = selected_main_cat) else t₁
  if selected_subcat ≠ "All"
  then t₂.filter (fun r => r.unnamed1 = selected_subcat) else t₂

/-- The guarded margin ratio of lines 77 and 106:
`(profit / sales * 100) if sales > 0 else 0`. -/
def profit_margin (total_profit total_sales : ℚ) : ℚ :=
  if total_sales > 0 then total_profit / total_sales * 100 else 0

/-- The second "Total" exclusion of line 110, applied to an
already-normalized table:
`df[~df["Category"].str.contains("Total", case=False, na=False)]`. -/
def subcat_df (t : List NRow) : List NRow :=
  t.filter (fun r => !(strContainsCI r.category "Total"))

/-! ## Inversion of the loader -/

/-- The loader returns a table exactly when both structural columns
resolve and every measure cell of a surviving row parses; the table is
then the surviving rows, normalized. -/
theorem load_and_clean_eq_ok_iff (f : RawFile) (m : String) (t : List NRow) :
    load_and_clean f m = .ok t ↔
      ∃ iCat iSub, colIdx f "Category" = some iCat
        ∧ colIdx f "Unnamed: 1" = some iSub
        ∧ (f.rows.filter (fun r => !(isTotalRow r iCat))).all
            (fun r => numeric_cols.all (fun c => (measureVal f c r).isSome)) = true
        ∧ t = (f.rows.filter (fun r => !(isTotalRow r iCat))).map
            (mkRow f iCat iSub m) := by
  constructor
  · intro h
    cases hC : colIdx f "Category" with
    | none => simp [load_and_clean, hC] at h
    | some iCat =>
      cases hS : colIdx f "Unnamed: 1" with
      | none => simp [load_and_clean, hC, hS] at h
      | some iSub =>
        simp only [load_and_clean, hC, hS] at h
        split at h
        · exact ⟨iCat, iSub, rfl, rfl, by assumption, (Except.ok.inj h).symm⟩
        · exact absurd h (by simp)
  · rintro ⟨iCat, iSub, hC, hS, hall, rfl⟩
    simp [load_and_clean, hC, hS, hall]

/-- Rows that survive the loader never match the "Total" drop mask. -/
theorem loader_rows_no_total (f : RawFile) (m : String) (t : List NRow)
    (h : load_and_clean f m = .ok t) :
    ∀ r ∈ t, strContainsCI r.category "Total" = false := by
  obtain ⟨iCat, iSub, _, _, _, rfl⟩ := (load_and_clean_eq_ok_iff f m t).mp h
  intro r hr
  obtain ⟨r₀, hr₀, rfl⟩ := List.mem_map.mp hr
  have hkeep := (List.mem_filter.mp hr₀).2
  cases htr : isTotalRow r₀ iCat
  · exact htr
  · rw [htr] at hkeep; exact absurd hkeep (by decide)

/-! ## Claim theorems -/

/-- C2: every table the loader returns is free of rows whose primary
category text contains "Total" case-insensitively, and a missing/null
primary category cell is treated as non-matching by the drop mask (so
such rows are kept, with no error possible in the comparison). -/
theorem c2_no_total_rows (f : RawFile) (m : String) (t : List NRow)
    (h : load_and_clean f m = .ok t) :
    (∀ r ∈ t, strContainsCI r.category "Total" = false)
    ∧ ∀ (row : List Cell) (i : ℕ), getCell row i = none →
        isTotalRow row i = false := by
  refine ⟨loader_rows_no_total f m t h, ?_⟩
  intro row i hnone
  unfold isTotalRow catVal
  rw [hnone]
  decide

/-- A file with a "Total" row, a row whose category cell is blank, and an
ordinary row; there are no measure columns. -/
def c2File : RawFile :=
  { cols := ["Category", "Unnamed: 1"]
    rows := [[some "Total Bev", some "x"], [none, some "y"],
             [some "Bev", some "Soda"]] }

/-- The record the loader produces for the blank-category row of
`c2File`. -/
def c2RowNan : NRow :=
  { category := "nan"
    unnamed1 := "y"
    measures := numeric_cols.map (fun c => (c, PFloat.finite 0))
    categoryFull := "nan / y"
    month := "JUN" }

/-- The record the loader produces for the ordinary row of `c2File`. -/
def c2RowBev : NRow :=
  { category := "Bev"
    unnamed1 := "Soda"
    measures := numeric_cols.map (fun c => (c, PFloat.finite 0))
    categoryFull := "Bev / Soda"
    month := "JUN" }

/-- Witness for C2 at a concrete file: the blank-category row survives
(the "Total" row does not) and its category text does not match. -/
theorem c2_no_total_rows_witness :
    strContainsCI c2RowNan.category "Total" = false :=
  (c2_no_total_rows c2File "JUN" [c2RowNan, c2RowBev] rfl).1
    c2RowNan (by decide)

/-- C3: merging the tables of two files concatenates them in order — the
row count is the sum, every row of the first file precedes every row of
the second, and each row (with its month tag) is kept as is at its
original offset; nothing is deduplicated. -/
theorem c3_merge_order (a b : List NRow) :
    (merged_df [a, b]).length = a.length + b.length
    ∧ (∀ i, i < a.length → (merged_df [a, b])[i]? = a[i]?)
    ∧ (∀ j, j < b.length → (merged_df [a, b])[a.length + j]? = b[j]?) := by
  have hm : merged_df [a, b] = a ++ b := by simp [merged_df]
  refine ⟨by rw [hm]; simp, fun i hi => ?_, fun j hj => ?_⟩
  · rw [hm]
    exact List.getElem?_append_left hi
  · rw [hm, List.getElem?_append_right (Nat.le_add_right _ _),
      Nat.add_sub_cancel_left]

/-- A one-row table tagged JUN, for the C3 witness. -/
def c3RowA : NRow :=
  { category := "A", unnamed1 := "x", measures := [],
    categoryFull := "A / x", month := "JUN" }

/-- A one-row table tagged JUL, for the C3 witness. -/
def c3RowB : NRow :=
  { category := "B", unnamed1 := "y", measures := [],
    categoryFull := "B / y", month := "JUL" }

/-- Witness for C3 at two concrete one-row tables: the second file's row
sits right after the first file's rows, month tag intact. -/
theorem c3_merge_order_witness :
    (0:ℕ) < [c3RowB].length
    ∧ (merged_df [[c3RowA], [c3RowB]])[[c3RowA].length + 0]? =
        [c3RowB][(0:ℕ)]? :=
  ⟨by decide, (c3_merge_order [c3RowA] [c3RowB]).2.2 0 (by decide)⟩

/-- C4: the numeric cleanup deletes every comma and every space, the
result does not depend on whether commas or spaces are removed first,
and cleaning then parsing the text "1,234 567" yields exactly 1234567.0. -/
theorem c4_clean_order_independent :
    (∀ s : String,
      cleanNum s = ⟨(s.toList.filter (fun c => !(c = ' '))).filter
        (fun c => !(c = ','))⟩)
    ∧ (∀ s : String,
        ',' ∉ (cleanNum s).toList ∧ ' ' ∉ (cleanNum s).toList)
    ∧ pyFloat (cleanNum "1,234 567") = some (PFloat.finite 1234567) := by
  refine ⟨fun s => ?_, fun s => ⟨?_, ?_⟩, by decide⟩
  · unfold cleanNum
    rw [List.filter_filter, List.filter_filter]
    congr 1
    apply List.filter_congr
    intro c _
    cases hc : (c = ',' : Bool) <;> cases hs : (c = ' ' : Bool) <;> simp [hc, hs]
  · simp [cleanNum, List.mem_filter]
  · simp [cleanNum, List.mem_filter]

/-- Witness for C4 at a concrete string: no comma or space survives
cleanup of "a, b". -/
theorem c4_clean_order_independent_witness :
    ',' ∉ (cleanNum "a, b").toList ∧ ' ' ∉ (cleanNum "a, b").toList :=
  c4_clean_order_independent.2.1 "a, b"

/-- C5: the guarded margin ratio is 0 whenever total sales is 0 — no
division-by-zero, whatever the profit. -/
theorem c5_profit_margin_zero_sales (total_profit : ℚ) :
    profit_margin total_profit 0 = 0 := by
  simp [profit_margin]

/-- Witness for C5: zero sales with nonzero profit 50 still gives
margin 0. -/
theorem c5_profit_margin_zero_sales_witness :
    profit_margin 50 0 = 0 :=
  c5_profit_margin_zero_sales 50

/-- Joining two strings around " / " never yields the empty string. -/
theorem append_sep_ne_empty (s t : String) : s ++ " / " ++ t ≠ "" := by
  intro hc
  have h := congrArg String.length hc
  rw [String.length_append, String.length_append] at h
  have h3 : (" / ").length = 3 := rfl
  have h0 : ("" : String).length = 0 := rfl
  omega

/-- C6: in every surviving row the composite identity field is the
primary category text, then " / ", then the secondary category text; it
is never empty; and a missing/blank category cell reaches it as the
literal text "nan". -/
theorem c6_composite_identity (f : RawFile) (m : String) (t : List NRow)
    (h : load_and_clean f m = .ok t) :
    (∀ r ∈ t, r.categoryFull = r.category ++ " / " ++ r.unnamed1)
    ∧ (∀ r ∈ t, r.categoryFull ≠ "")
    ∧ ∀ (row : List Cell) (iCat iSub : ℕ), getCell row iCat = none →
        (mkRow f iCat iSub m row).category = "nan" := by
  obtain ⟨iCat, iSub, _, _, _, rfl⟩ := (load_and_clean_eq_ok_iff f m t).mp h
  refine ⟨?_, ?_, ?_⟩
  · intro r hr
    obtain ⟨r₀, _, rfl⟩ := List.mem_map.mp hr
    rfl
  · intro r hr
    obtain ⟨r₀, _, rfl⟩ := List.mem_map.mp hr
    exact append_sep_ne_empty _ _
  · intro row i j hnone
    show catVal row i = "nan"
    unfold catVal
    rw [hnone]
    decide

/-- A one-row file matching the composite-identity example of the spec. -/
def c6File : RawFile :=
  { cols := ["Category", "Unnamed: 1"]
    rows := [[some "Beverages", some "Soda"]] }

/-- The record the loader produces for the single row of `c6File`. -/
def c6Row : NRow :=
  { category := "Beverages"
    unnamed1 := "Soda"
    measures := numeric_cols.map (fun c => (c, PFloat.finite 0))
    categoryFull := "Beverages / Soda"
    month := "JUN" }

/-- Witness for C6: primary "Beverages" and secondary "Soda" give the
non-empty identity "Beverages / Soda". -/
theorem c6_composite_identity_witness :
    c6Row.categoryFull = c6Row.category ++ " / " ++ c6Row.unnamed1
    ∧ c6Row.categoryFull ≠ "" :=
  ⟨(c6_composite_identity c6File "JUN" [c6Row] rfl).1 c6Row (by decide),
   (c6_composite_identity c6File "JUN" [c6Row] rfl).2.1 c6Row (by decide)⟩

/-- A one-row file whose "Total Sales" column is present but whose only
cell is blank (NaN). -/
def c1File : RawFile :=
  { cols := ["Category", "Unnamed: 1", "Total Sales"]
    rows := [[some "Bev", some "Soda", none]] }

/-- The record the loader produces for the single row of `c1File`: the
blank sales cell becomes the text "nan" and parses to NaN. -/
def c1Row : NRow :=
  { category := "Bev"
    unnamed1 := "Soda"
    measures := [("Total Sales", PFloat.nan), ("Total Profit", PFloat.finite 0),
      ("Total Cost Excise", PFloat.finite 0), ("Discount", PFloat.finite 0),
      ("Gross Sales", PFloat.finite 0), ("VAT", PFloat.finite 0),
      ("Net Sales (incl. VAT)", PFloat.finite 0)]
    categoryFull := "Bev / Soda"
    month := "JUN" }

/-- C1 counterexample: on `c1File` the loader succeeds and returns a row
whose "Total Sales" value is NaN — a present measure column with a blank
cell does not produce a finite value, contrary to the claim. -/
theorem c1_counterexample :
    load_and_clean c1File "JUN" = .ok [c1Row]
    ∧ ("Total Sales", PFloat.nan) ∈ c1Row.measures
    ∧ PFloat.nan.isFinite = false :=
  ⟨rfl, by decide, rfl⟩

/-- C1 (amended): every surviving row carries a floating-point value for
each of the seven named measures (in the fixed order), and any measure
whose column is absent from the file is exactly 0.0 in every row; the
value need not be finite (a blank cell of a present column is NaN). -/
theorem c1_measures_total_default_zero (f : RawFile) (m : String)
    (t : List NRow) (h : load_and_clean f m = .ok t) :
    ∀ r ∈ t, r.measures.map Prod.fst = numeric_cols
      ∧ ∀ c ∈ numeric_cols, colIdx f c = none →
          (c, PFloat.finite 0) ∈ r.measures := by
  obtain ⟨iCat, iSub, _, _, _, rfl⟩ := (load_and_clean_eq_ok_iff f m t).mp h
  intro r hr
  obtain ⟨r₀, _, rfl⟩ := List.mem_map.mp hr
  constructor
  · show (numeric_cols.map
      (fun c => (c, (measureVal f c r₀).getD PFloat.nan))).map Prod.fst
      = numeric_cols
    rw [List.map_map]
    exact List.map_id _
  · intro c hc habs
    have hz : (measureVal f c r₀).getD PFloat.nan = PFloat.finite 0 := by
      unfold measureVal
      rw [habs]
      rfl
    have hmem : (c, (measureVal f c r₀).getD PFloat.nan) ∈ numeric_cols.map
        (fun x => (x, (measureVal f x r₀).getD PFloat.nan)) :=
      List.mem_map.mpr ⟨c, hc, rfl⟩
    rw [hz] at hmem
    exact hmem

/-- Witness for C1 (amended): `c1File` has no "Discount" column, so the
surviving row records Discount = 0.0. -/
theorem c1_measures_total_default_zero_witness :
    ("Discount", PFloat.finite 0) ∈ c1Row.measures :=
  (c1_measures_total_default_zero c1File "JUN" [c1Row] rfl c1Row
    (by decide)).2 "Discount" (by decide) (by decide)

/-- Modelled from the claim's wording (C7): some measure column of the
file has a non-empty cell whose text does not parse as a number after
comma/space stripping — quantified over all rows of the file, as the
claim states it. -/
def fileHasUnparsableMeasureCell (f : RawFile) : Bool :=
  numeric_cols.any (fun c =>
    match colIdx f c with
    | none => false
    | some i => f.rows.any (fun r =>
        (getCell r i).isSome
          && (pyFloat (cleanNum (cellStr (getCell r i)))).isNone))

/-- A file whose grand-total row holds the unparsable sales text "abc"
while the ordinary row holds "5". -/
def c7File : RawFile :=
  { cols := ["Category", "Unnamed: 1", "Total Sales"]
    rows := [[some "Total", some "x", some "abc"],
             [some "Bev", some "Soda", some "5"]] }

/-- C7 counterexample: `c7File` satisfies the claim's failure condition
(a non-empty, unparsable measure cell), yet the loader succeeds — the
bad cell sits in a "Total" row, which is dropped before the numeric
cleanup runs. -/
theorem c7_counterexample :
    fileHasUnparsableMeasureCell c7File = true
    ∧ (load_and_clean c7File "JUN").isOk = true := by
  exact ⟨rfl, rfl⟩

/-- C7 (amended): a loader invocation succeeds exactly when the file
resolves to a table, both structural columns exist, and every measure
cell of a row surviving the total-row exclusion parses after cleanup;
and an absent measure column never blocks — it reads as the constant
0.0. -/
theorem c7_failure_conditions (fs : FS) (p m : String) :
    ((∃ t, (loadRun fs p m).1 = .ok t) ↔
      ∃ f, fs p = some f
        ∧ ∃ iCat, colIdx f "Category" = some iCat
          ∧ (colIdx f "Unnamed: 1").isSome = true
          ∧ ∀ r ∈ f.rows.filter (fun r => !(isTotalRow r iCat)),
              ∀ c ∈ numeric_cols, (measureVal f c r).isSome = true)
    ∧ ∀ (f : RawFile) (c : String) (r : List Cell), colIdx f c = none →
        measureVal f c r = some (PFloat.finite 0) := by
  constructor
  · cases hf : fs p with
    | none =>
      simp only [loadRun, readExcel, hf]
      constructor
      · rintro ⟨t, ht⟩
        exact absurd ht (by simp)
      · rintro ⟨f, hfp, -⟩
        exact absurd hfp (by simp)
    | some f =>
      simp only [loadRun, readExcel, hf]
      constructor
      · rintro ⟨t, ht⟩
        obtain ⟨iCat, iSub, hC, hS, hall, -⟩ :=
          (load_and_clean_eq_ok_iff f m t).mp ht
        refine ⟨f, rfl, iCat, hC, by rw [hS]; rfl, ?_⟩
        intro r hr c hc
        exact List.all_eq_true.mp (List.all_eq_true.mp hall r hr) c hc
      · rintro ⟨f', hf', iCat, hC, hS, hcells⟩
        obtain rfl : f = f' := Option.some.inj hf'
        obtain ⟨iSub, hS'⟩ := Option.isSome_iff_exists.mp hS
        refine ⟨(f.rows.filter (fun r => !(isTotalRow r iCat))).map
          (mkRow f iCat iSub m), ?_⟩
        exact (load_and_clean_eq_ok_iff f m _).mpr
          ⟨iCat, iSub, hC, hS', List.all_eq_true.mpr
            (fun r hr => List.all_eq_true.mpr (fun c hc => hcells r hr c hc)),
            rfl⟩
  · intro f c r habs
    unfold measureVal
    rw [habs]

/-- Witness for C7 (amended): the absent "Discount" column of `c7File`
reads as 0.0 instead of blocking the load. -/
theorem c7_failure_conditions_witness :
    measureVal c7File "Discount" [] = some (PFloat.finite 0) :=
  (c7_failure_conditions (fun _ => none) "r" "JUN").2 c7File "Discount" []
    (by decide)

/-- C8: a loader run leaves the file system exactly as it found it (its
only interaction is the read), and immediately re-running it against the
state it left behind returns the identical table. -/
theorem c8_idempotent_no_writes (fs : FS) (p m : String) :
    (loadRun fs p m).2 = fs
    ∧ (loadRun ((loadRun fs p m).2) p m).1 = (loadRun fs p m).1 := by
  cases h : fs p <;> simp [loadRun, readExcel, h]

/-- C9: with all three selections "All" the filter stage returns the
table unchanged; with three specific selections it keeps exactly the
rows matching all three equalities at once. -/
theorem c9_filters_conjunctive :
    (∀ t : List NRow, filtered_df t "All" "All" "All" = t)
    ∧ ∀ (t : List NRow) (sm sc ss : String),
        sm ≠ "All" → sc ≠ "All" → ss ≠ "All" →
        filtered_df t sm sc ss = t.filter (fun r =>
          (r.month = sm : Bool) && (r.category = sc) && (r.unnamed1 = ss)) := by
  constructor
  · intro t
    simp [filtered_df]
  · intro t sm sc ss h1 h2 h3
    simp only [filtered_df, if_pos h1, if_pos h2, if_pos h3,
      List.filter_filter]
    apply List.filter_congr
    intro r _
    by_cases hm : r.month = sm <;> by_cases hc : r.category = sc <;>
      by_cases hs : r.unnamed1 = ss <;> simp [hm, hc, hs]

/-- A row in month JUN, category Bev, subcategory Soda, for the C9
witness. -/
def c9Row : NRow :=
  { category := "Bev", unnamed1 := "Soda", measures := [],
    categoryFull := "Bev / Soda", month := "JUN" }

/-- Witness for C9 at a concrete table and three specific selections. -/
theorem c9_filters_conjunctive_witness :
    filtered_df [c9Row] "JUN" "Bev" "Soda" = [c9Row].filter (fun r =>
      (r.month = "JUN" : Bool) && (r.category = "Bev")
        && (r.unnamed1 = "Soda")) :=
  c9_filters_conjunctive.2 [c9Row] "JUN" "Bev" "Soda"
    (by decide) (by decide) (by decide)

/-- One conditional-filter stage of lines 66-71 only ever narrows the
table. -/
theorem filter_step_sublist (t : List NRow) (cond : Prop) [Decidable cond]
    (p : NRow → Bool) : List.Sublist (if cond then t.filter p else t) t := by
  split
  · exact t.filter_sublist
  · exact List.Sublist.refl t

/-- The filter stage returns a sublist of its input. -/
theorem filtered_df_sublist (t : List NRow) (sm sc ss : String) :
    List.Sublist (filtered_df t sm sc ss) t := by
  simp only [filtered_df]
  exact ((filter_step_sublist _ _ _).trans (filter_step_sublist _ _ _)).trans
    (filter_step_sublist _ _ _)

/-- C10: on the merge of any loader outputs, and on any filter-stage
subset of it, re-applying the "Total" exclusion is a no-op — the loader
already removed every matching row, so the table comes back unchanged,
same rows in the same order. -/
theorem c10_second_total_filter_noop (dfs : List (List NRow))
    (h : ∀ t ∈ dfs, ∃ f m, load_and_clean f m = .ok t)
    (sm sc ss : String) :
    subcat_df (filtered_df (merged_df dfs) sm sc ss) =
      filtered_df (merged_df dfs) sm sc ss
    ∧ subcat_df (merged_df dfs) = merged_df dfs := by
  have hmerged : ∀ r ∈ merged_df dfs, strContainsCI r.category "Total" = false := by
    intro r hr
    obtain ⟨t, ht, hrt⟩ := List.mem_flatten.mp hr
    obtain ⟨f, m, hload⟩ := h t ht
    exact loader_rows_no_total f m t hload r hrt
  constructor
  · apply List.filter_eq_self.mpr
    intro r hr
    have hrm : r ∈ merged_df dfs :=
      (filtered_df_sublist (merged_df dfs) sm sc ss).subset hr
    rw [hmerged r hrm]
    rfl
  · apply List.filter_eq_self.mpr
    intro r hr
    rw [hmerged r hr]
    rfl

/-- A one-row file for the C10 witness. -/
def c10File : RawFile :=
  { cols := ["Category", "Unnamed: 1"]
    rows := [[some "Snacks", some "Chips"]] }

/-- The record the loader produces for the single row of `c10File`. -/
def c10Row : NRow :=
  { category := "Snacks"
    unnamed1 := "Chips"
    measures := numeric_cols.map (fun c => (c, PFloat.finite 0))
    categoryFull := "Snacks / Chips"
    month := "JUN" }

/-- Witness for C10 at the merge of one concrete loader output. -/
theorem c10_second_total_filter_noop_witness :
    subcat_df (merged_df [[c10Row]]) = merged_df [[c10Row]] :=
  (c10_second_total_filter_noop [[c10Row]]
    (by
      intro t ht
      rw [List.mem_singleton] at ht
      subst ht
      exact ⟨c10File, "JUN", rfl⟩)
    "All" "All" "All").2

end Report
